import Mathlib

/-!
# A shallow embedding of the `djson` JSON decoder

This file embeds the decoding core of the `djson` repository (the latest
revision of `decode.go`, together with the package-level entry points of
`interface.go` and the unescaping helpers shared with the Go standard
library in `escape.go`) into Lean, and proves/refutes the frozen claims
about it.

Modelling conventions:

* A Go byte slice is a `List Nat` whose elements are bytes (`0..255`).
* A Go `string` is likewise a `List Nat` of its UTF-8 bytes.
* The decoder's mutable cursor `d.pos` is passed explicitly; the immutable
  parts of the `Decoder` struct (`data`, `sdata`, `usestring`) are a record.
* `float64` is modelled by exact rational arithmetic (`Rat`).  Every numeric
  literal appearing in a claim is small enough that the model agrees with
  IEEE-754 binary64 evaluation of the source.
* A Go runtime panic (out-of-range index or slice) is the result
  `DRes.fault`.  Indexing `d.data[i]` with `i ≥ len(data)` always panics in
  Go; slicing `d.data[a:b]` panics when `b` exceeds the slice capacity, and
  we model capacity as equal to length (the only content-deterministic
  choice, since Go leaves the capacity of `[]byte(string)` unspecified).
* The scanning loops of the source are expressed as structural recursion on
  an explicit fuel argument so that all definitions compute by kernel
  reduction.  Entry points pass fuel that exceeds the number of loop
  iterations possible on the given input (each iteration consumes input or
  ends the loop; see the bound argument at `topFuel`), so `DRes.timeout`
  is unreachable from the entry points; in addition, no theorem below
  depends on fuel adequacy: universal statements hypothesise on the very
  same fuel-instantiated entry points they conclude about.
* Go's `map[string]interface{}` is an association list without duplicate
  keys; the map assignment `obj[k] = v` is `setKey` (replace the binding in
  place, or append a fresh one), and map indexing is `lookupKey`.
-/

namespace djson

/-- Whitespace bytes skipped by `Decoder.skipSpaces`: space, tab, LF, CR. -/
def isWS (c : Nat) : Bool := c = 32 || c = 9 || c = 10 || c = 13

/-- ASCII decimal digit. -/
def isDigitB (c : Nat) : Bool := 48 ≤ c && c ≤ 57

/-- Hexadecimal digit, as tested by `escape_u` and `getu4`:
`0-9`, `a-f`, `A-F`. -/
def isHexB (c : Nat) : Bool :=
  (48 ≤ c && c ≤ 57) || (97 ≤ c && c ≤ 102) || (65 ≤ c && c ≤ 70)

/-- The byte of `data` at index `i`, with the sentinel `0` beyond the end —
the convention of `Decoder.next` and `Decoder.skipSpaces` in the source
(both return the byte `0` at end of input). -/
def byte0 (data : List Nat) (i : Nat) : Nat := (data[i]?).getD 0

/-- Total slice `data[a:b]` used where the source guarantees `a ≤ b ≤ len`. -/
def sliceL (data : List Nat) (a b : Nat) : List Nat :=
  (data.drop a).take (b - a)

/-- Go slice expression `data[a:b]` with its bounds check: out of range is a
runtime panic (`none`).  Capacity is modelled as equal to length. -/
def sliceGo (data : List Nat) (a b : Nat) : Option (List Nat) :=
  if a ≤ b ∧ b ≤ data.length then some (sliceL data a b) else none

/-- Lowercase hex digit character, as in `strconv`'s `lowerhex`. -/
def hexDigit (n : Nat) : Char :=
  if n < 10 then Char.ofNat (48 + n) else Char.ofNat (87 + n)

/-- Two lowercase hex digits of a byte. -/
def hexByte (c : Nat) : String :=
  String.mk [hexDigit (c / 16 % 16), hexDigit (c % 16)]

/-- `unicode.IsPrint` restricted to the Latin-1 range `0x80..0xFF`
(needed by `quoteChar` for non-ASCII bytes): printable iff `≥ 0xA1` and not
the soft hyphen `0xAD`. -/
def isPrintLatin1 (c : Nat) : Bool := 161 ≤ c && c ≠ 173

/-- The body of `strconv.Quote` for the single character `string(c)`
(`c` a byte), without the surrounding quotation marks. -/
def goQuoteBody (c : Nat) : String :=
  if c = 92 then "\\\\"
  else if 32 ≤ c ∧ c ≤ 126 then String.singleton (Char.ofNat c)
  else if c = 7 then "\\a"
  else if c = 8 then "\\b"
  else if c = 12 then "\\f"
  else if c = 10 then "\\n"
  else if c = 13 then "\\r"
  else if c = 9 then "\\t"
  else if c = 11 then "\\v"
  else if c < 32 ∨ c = 127 then "\\x" ++ hexByte c
  else if isPrintLatin1 c then String.singleton (Char.ofNat c)
  else "\\u00" ++ hexByte c

/-- `quoteChar` from the source: format byte `c` as a quoted character
literal for error messages. -/
def quoteChar (c : Nat) : String :=
  if c = 39 then "'\\''"
  else if c = 34 then "'\"'"
  else "'" ++ goQuoteBody c ++ "'"

/-- Decode errors.  `SyntaxError` carries the message and the 1-based
`Offset` field (`-1` for the shared sentinel errors); `ErrStringEscape` is
the plain (non-`SyntaxError`) error built with `errors.New`; `NumError`
models the error returned by `strconv.ParseFloat`, carrying the offending
substring. -/
inductive DErr where
  | SyntaxError (msg : String) (Offset : Int)
  | ErrStringEscape
  | NumError (s : List Nat)
  deriving DecidableEq

/-- `ErrUnexpectedEOF` from the source: a `SyntaxError` with offset `-1`. -/
def ErrUnexpectedEOF : DErr := .SyntaxError "unexpected end of JSON input" (-1)

/-- `ErrInvalidHexEscape` from the source. -/
def ErrInvalidHexEscape : DErr :=
  .SyntaxError "invalid hexadecimal escape sequence" (-1)

/-- Outcome of running a piece of the decoder: a value, a returned error, a
Go runtime panic (`fault`, out-of-range index or slice), or fuel exhaustion
(`timeout`, unreachable from the entry points). -/
inductive DRes (α : Type) where
  | ok (a : α)
  | err (e : DErr)
  | fault
  | timeout
  deriving DecidableEq

/-- The immutable part of the `Decoder` struct of `decode.go` (the cursor
`pos` is passed explicitly; `end` is `data.length`). -/
structure Decoder where
  data : List Nat
  sdata : List Nat
  usestring : Bool
  deriving DecidableEq

/-- `NewDecoder` from `decode.go` (also standing for `interface.go`'s
`newDecoder`): fresh decoder, `usestring` off, `sdata` empty. -/
def NewDecoder (data : List Nat) : Decoder := ⟨data, [], false⟩

/-- `Decoder.AllocString`: snapshot the data as `sdata` and turn on the
string fast path. -/
def AllocString (d : Decoder) : Decoder := ⟨d.data, d.data, true⟩

/-- The dynamically-typed decoded value (`interface{}` result of the
decoder): null, bool, number, string, array or object. -/
inductive Value where
  | null
  | bool (b : Bool)
  | num (n : Rat)
  | str (s : List Nat)
  | arr (elems : List Value)
  | obj (fields : List (List Nat × Value))

/-- `Decoder.error` from `decode.go`: at an in-range position (`d.pos <
d.end`) the `SyntaxError` message names the offending character and the
context and the offset is the 1-based position `pos+1`; past the end it is
the shared `ErrUnexpectedEOF`.  (Only the buffer is consulted, so it is
passed directly.) -/
def errC (data : List Nat) (pos c : Nat) (ctx : String) : DErr :=
  if pos < data.length then
    .SyntaxError ("invalid character " ++ quoteChar c ++ " " ++ ctx)
      ((pos : Int) + 1)
  else ErrUnexpectedEOF

/-- Go map assignment `obj[k] = v` on the association-list model: replace
the binding of `k` in place if present, else append it. -/
def setKey (m : List (List Nat × Value)) (k : List Nat) (v : Value) :
    List (List Nat × Value) :=
  match m with
  | [] => [(k, v)]
  | (k', v') :: t => if k' = k then (k, v) :: t else (k', v') :: setKey t k v

/-- Go map indexing `obj[k]` on the association-list model. -/
def lookupKey (m : List (List Nat × Value)) (k : List Nat) : Option Value :=
  match m with
  | [] => none
  | (k', v') :: t => if k' = k then some v' else lookupKey t k

/-- `Decoder.skipSpaces`, fuel-structural: advance past whitespace, stopping
at the first non-whitespace byte or at the end.  (The source returns the
byte; here the new position is returned and the byte is `byte0` of it.) -/
def skipSpacesF (data : List Nat) : Nat → Nat → Nat
  | 0, pos => pos
  | fuel + 1, pos =>
    if pos < data.length ∧ isWS (byte0 data pos) then
      skipSpacesF data fuel (pos + 1)
    else pos

/-- `Decoder.skipSpaces` with adequate fuel. -/
def skipWS (data : List Nat) (pos : Nat) : Nat :=
  skipSpacesF data (data.length + 1) pos

/-! ## Unicode helpers used by `unquoteBytes` (Go standard library models) -/

/-- `utf16.IsSurrogate`. -/
def isSurrogate (r : Int) : Bool := 0xD800 ≤ r && r < 0xE000

/-- `utf16.DecodeRune`: combine a high/low surrogate pair into a scalar, or
return the replacement character `U+FFFD`. -/
def decodeRune16 (r1 r2 : Int) : Int :=
  if 0xD800 ≤ r1 && r1 < 0xDC00 && 0xDC00 ≤ r2 && r2 < 0xE000 then
    (r1 - 0xD800) * 0x400 + (r2 - 0xDC00) + 0x10000
  else 0xFFFD

/-- `utf8.EncodeRune`: the UTF-8 bytes of rune `r`; out-of-range runes and
surrogates encode the replacement character. -/
def encodeRune (r : Int) : List Nat :=
  if r < 0 || 0x10FFFF < r || (0xD800 ≤ r && r < 0xE000) then
    [0xEF, 0xBF, 0xBD]
  else
    let n := r.toNat
    if n < 0x80 then [n]
    else if n < 0x800 then [0xC0 + n / 64, 0x80 + n % 64]
    else if n < 0x10000 then
      [0xE0 + n / 4096, 0x80 + n / 64 % 64, 0x80 + n % 64]
    else
      [0xF0 + n / 262144, 0x80 + n / 4096 % 64, 0x80 + n / 64 % 64,
        0x80 + n % 64]

/-- `utf8.DecodeRune`: first rune of `s` and its byte size; malformed input
gives `(U+FFFD, 1)` (and `(U+FFFD, 0)` for empty input), following the
accept-ranges of the Go implementation. -/
def decodeRuneU8 (s : List Nat) : Int × Nat :=
  match s with
  | [] => (0xFFFD, 0)
  | b0 :: rest =>
    if b0 < 0x80 then ((b0 : Int), 1)
    else if b0 < 0xC2 then (0xFFFD, 1)
    else if b0 < 0xE0 then
      match rest with
      | b1 :: _ =>
        if 0x80 ≤ b1 && b1 ≤ 0xBF then
          (((b0 - 0xC0) * 64 + (b1 - 0x80) : Nat), 2)
        else (0xFFFD, 1)
      | [] => (0xFFFD, 1)
    else if b0 < 0xF0 then
      match rest with
      | b1 :: b2 :: _ =>
        let lo := if b0 = 0xE0 then 0xA0 else 0x80
        let hi := if b0 = 0xED then 0x9F else 0xBF
        if lo ≤ b1 && b1 ≤ hi && 0x80 ≤ b2 && b2 ≤ 0xBF then
          (((b0 - 0xE0) * 4096 + (b1 - 0x80) * 64 + (b2 - 0x80) : Nat), 3)
        else (0xFFFD, 1)
      | _ => (0xFFFD, 1)
    else if b0 < 0xF5 then
      match rest with
      | b1 :: b2 :: b3 :: _ =>
        let lo := if b0 = 0xF0 then 0x90 else 0x80
        let hi := if b0 = 0xF4 then 0x8F else 0xBF
        if lo ≤ b1 && b1 ≤ hi && 0x80 ≤ b2 && b2 ≤ 0xBF &&
            0x80 ≤ b3 && b3 ≤ 0xBF then
          (((b0 - 0xF0) * 262144 + (b1 - 0x80) * 4096 + (b2 - 0x80) * 64 +
              (b3 - 0x80) : Nat), 4)
        else (0xFFFD, 1)
      | _ => (0xFFFD, 1)
    else (0xFFFD, 1)

/-- `getu4` from the source: decode `\uXXXX` at the beginning of `s` to its
hex value, or `-1`. -/
def getu4 (s : List Nat) : Int :=
  if s.length < 6 ∨ byte0 s 0 ≠ 92 ∨ byte0 s 1 ≠ 117 then -1
  else
    let h := fun (i : Nat) => byte0 s (2 + i)
    if isHexB (h 0) && isHexB (h 1) && isHexB (h 2) && isHexB (h 3) then
      let v := fun (c : Nat) =>
        if c ≤ 57 then c - 48 else if 97 ≤ c then c - 97 + 10 else c - 65 + 10
      ((v (h 0)) * 4096 + (v (h 1)) * 256 + (v (h 2)) * 16 + v (h 3) : Nat)
    else -1

/-- First pass of `unquoteBytes`: index of the first byte that needs work
(backslash, quote, control byte, or a malformed UTF-8 start), or the length
of `s` if there is none. -/
def uqScan (s : List Nat) : Nat → Nat → Nat
  | 0, r => r
  | fuel + 1, r =>
    if r < s.length then
      let c := byte0 s r
      if c = 92 || c = 34 || c < 32 then r
      else if c < 0x80 then uqScan s fuel (r + 1)
      else
        let dr := decodeRuneU8 (s.drop r)
        if dr.1 = 0xFFFD && dr.2 = 1 then r else uqScan s fuel (r + dr.2)
    else r

/-- Second pass of `unquoteBytes`: materialise the unescaped bytes starting
from index `r`, with `acc` the output built so far.  `none` is the `ok =
false` return of the source (the buffer-management details of the source
affect only allocation, not the produced bytes, and are dropped). -/
def uqLoop (s : List Nat) : Nat → Nat → List Nat → Option (List Nat)
  | 0, _, _ => none
  | fuel + 1, r, acc =>
    if r < s.length then
      let c := byte0 s r
      if c = 92 then
        if r + 1 ≥ s.length then none
        else
          let e := byte0 s (r + 1)
          if e = 34 || e = 92 || e = 47 || e = 39 then
            uqLoop s fuel (r + 2) (acc ++ [e])
          else if e = 98 then uqLoop s fuel (r + 2) (acc ++ [8])
          else if e = 102 then uqLoop s fuel (r + 2) (acc ++ [12])
          else if e = 110 then uqLoop s fuel (r + 2) (acc ++ [10])
          else if e = 114 then uqLoop s fuel (r + 2) (acc ++ [13])
          else if e = 116 then uqLoop s fuel (r + 2) (acc ++ [9])
          else if e = 117 then
            let rr := getu4 (s.drop r)
            if rr < 0 then none
            else
              if isSurrogate rr then
                let rr1 := getu4 (s.drop (r + 6))
                let dec := decodeRune16 rr rr1
                if dec ≠ 0xFFFD then
                  uqLoop s fuel (r + 12) (acc ++ encodeRune dec)
                else uqLoop s fuel (r + 6) (acc ++ encodeRune 0xFFFD)
              else uqLoop s fuel (r + 6) (acc ++ encodeRune rr)
          else none
      else if c = 34 || c < 32 then none
      else if c < 0x80 then uqLoop s fuel (r + 1) (acc ++ [c])
      else
        let dr := decodeRuneU8 (s.drop r)
        uqLoop s fuel (r + dr.2) (acc ++ encodeRune dr.1)
    else some acc

/-- `unquoteBytes` from the source: unescape the inside of a JSON string
literal; `none` is the `ok = false` failure. -/
def unquoteBytes (s : List Nat) : Option (List Nat) :=
  if s.length = 0 then some []
  else
    let r := uqScan s (s.length + 1) 0
    if r = s.length then some s
    else uqLoop s (s.length + 1) r (sliceL s 0 r)

/-! ## The string scanner (`Decoder.string` of `decode.go`) -/

/-- The `scan`/`escape_u` loop of `Decoder.string`.  `start` is the index of
the first content byte, `pos` the cursor, `unquote` the needs-unescaping
flag.  On success returns the decoded bytes and the position past the
closing quote.

The `\u` arm mirrors the source exactly: after `\u` it requires the cursor
to be in range (else `ErrInvalidHexEscape`), then checks only the FIRST
THREE characters for hex-digit-ness, indexing `d.data[d.pos+i]` without a
bound on `i` (an out-of-range index is a fault), and resumes the scan three
bytes further on, so the fourth character is consumed by the main loop as
ordinary content. -/
def stringScan (d : Decoder) : Nat → Nat → Nat → Bool → DRes (List Nat × Nat)
  | 0, _, _, _ => .timeout
  | fuel + 1, start, pos, unquote =>
    if pos ≥ d.data.length then .err ErrUnexpectedEOF
    else
      let c := byte0 d.data pos
      if c = 34 then
        if unquote then
          match unquoteBytes (sliceL d.data start pos) with
          | none => .err .ErrStringEscape
          | some t => .ok (t, pos + 1)
        else
          .ok ((if d.usestring then sliceL d.sdata start pos
                else sliceL d.data start pos), pos + 1)
      else if c = 92 then
        match d.data[pos + 1]? with
        | none => .fault
        | some e =>
          if e = 117 then
            let p := pos + 2
            if p ≥ d.data.length then .err ErrInvalidHexEscape
            else
              match d.data[p]? with
              | none => .fault
              | some h0 =>
                if isHexB h0 then
                  match d.data[p + 1]? with
                  | none => .fault
                  | some h1 =>
                    if isHexB h1 then
                      match d.data[p + 2]? with
                      | none => .fault
                      | some h2 =>
                        if isHexB h2 then
                          stringScan d fuel start (p + 3) true
                        else
                          .err (errC d.data p h2
                            "in \\u hexadecimal character escape")
                    else
                      .err (errC d.data p h1 "in \\u hexadecimal character escape")
                else .err (errC d.data p h0 "in \\u hexadecimal character escape")
          else if e = 98 || e = 102 || e = 110 || e = 114 || e = 116 ||
              e = 92 || e = 47 || e = 34 then
            stringScan d fuel start (pos + 2) true
          else .err (errC d.data (pos + 1) e "in string escape code")
      else if c < 32 then .err (errC d.data pos c "in string literal")
      else stringScan d fuel start (pos + 1) (unquote || decide (127 < c))

/-- `Decoder.string`: called with the cursor at the opening quote. -/
def stringD (d : Decoder) (pos : Nat) : DRes (List Nat × Nat) :=
  stringScan d (d.data.length + 2) (pos + 1) (pos + 1) false

/-! ## The number scanner (`Decoder.number` of `decode.go`) -/

/-- `10^n` as a rational, by plain structural recursion. -/
def pow10 : Nat → Rat
  | 0 => 1
  | n + 1 => 10 * pow10 n

/-- The integer-accumulation loop of `Decoder.number`
(`n = 10*n + float64(c-'0')`, modelled exactly over `Rat`): consume digits
from `pos`, returning the accumulated value and the first non-digit
position. -/
def accDigits (data : List Nat) : Nat → Nat → Rat → Rat × Nat
  | 0, pos, n => (n, pos)
  | fuel + 1, pos, n =>
    let c := byte0 data pos
    if isDigitB c then accDigits data fuel (pos + 1) (10 * n + ((c - 48 : Nat) : Rat))
    else (n, pos)

/-- Position of the first non-digit byte at or after `pos` (the
`for c = d.next(); '0' <= c && c <= '9';` loops). -/
def skipDigitsF (data : List Nat) : Nat → Nat → Nat
  | 0, pos => pos
  | fuel + 1, pos =>
    if isDigitB (byte0 data pos) then skipDigitsF data fuel (pos + 1) else pos

/-- Split a leading run of decimal digits. -/
def spanDigits (l : List Nat) : List Nat × List Nat :=
  (l.takeWhile isDigitB, l.dropWhile isDigitB)

/-- Numeric value of a digit string. -/
def digitsVal (l : List Nat) : Nat := l.foldl (fun a c => 10 * a + (c - 48)) 0

/-- The exponent part accepted by `strconv.ParseFloat` after `e`/`E`:
optional sign then one or more digits, consuming the rest of the input. -/
def parseExpPart (l : List Nat) : Option Int :=
  let (sg, t) : Int × List Nat :=
    match l with
    | 43 :: u => (1, u)
    | 45 :: u => (-1, u)
    | _ => (1, l)
  let (ds, rest) := spanDigits t
  if ds = [] ∨ rest ≠ [] then none else some (sg * (digitsVal ds : Int))

/-- Model of `strconv.ParseFloat(s, 64)` on the decimal syntax reachable
from the number scanner: optional sign, digits with at most one dot (at
least one digit overall), optional exponent.  The result is the exact
rational value; IEEE rounding is not modelled (all literals in the claims
agree with their binary64 evaluation under this model). -/
def parseFloatQ (s : List Nat) : Option Rat :=
  let (sg, s1) : Rat × List Nat :=
    match s with
    | 43 :: u => (1, u)
    | 45 :: u => (-1, u)
    | _ => (1, s)
  let (ip, r1) := spanDigits s1
  let (fp, r2) : List Nat × List Nat :=
    match r1 with
    | 46 :: t => spanDigits t
    | _ => ([], r1)
  if ip = [] ∧ fp = [] then none
  else
    let base : Rat := sg * (digitsVal (ip ++ fp) : Rat) / pow10 fp.length
    match r2 with
    | [] => some base
    | c :: t =>
      if c = 101 ∨ c = 69 then
        match parseExpPart t with
        | none => none
        | some e =>
          some (if 0 ≤ e then base * pow10 e.toNat else base / pow10 (-e).toNat)
      else none

/-- `Decoder.number` from `decode.go`, cursor at `-` (when `neg`) or at the
first byte of the literal otherwise.  Every `d.data[d.pos]` read of the
source is a faulting access; the two digit checks written `c < '0' && c >
'9'` in the source are kept verbatim (they are unsatisfiable, so their
error branches are dead code).  On the `isFloat` path the matched substring
is re-parsed by `parseFloatQ`; a failure there is the `strconv` error. -/
def numberD (d : Decoder) (pos0 : Nat) (neg : Bool) : DRes (Rat × Nat) :=
  let data := d.data
  let go : Nat → DRes (Rat × Nat) := fun pos =>
    match data[pos]? with
    | none => .fault
    | some c0 =>
      let start := pos
      -- digits first
      let acc : Rat × Nat :=
        if c0 = 48 then (0, pos + 1)
        else if 49 ≤ c0 ∧ c0 ≤ 57 then accDigits data (data.length + 1) pos 0
        else (0, pos)
      let n := acc.1
      let pos1 := acc.2
      let c1 := byte0 data pos1
      -- . followed by 1 or more digits
      let frac : DRes (Bool × Nat) :=
        if c1 = 46 then
          match data[pos1 + 1]? with
          | none => .fault
          | some c2 =>
            if c2 < 48 ∧ 57 < c2 then
              .err (errC d.data (pos1 + 1) c2 "after decimal point in numeric literal")
            else .ok (true, skipDigitsF data (data.length + 1) (pos1 + 2))
        else .ok (false, pos1)
      match frac with
      | .fault => .fault
      | .err e => .err e
      | .timeout => .timeout
      | .ok (isF1, pos2) =>
        let c2 := byte0 data pos2
        -- e or E followed by an optional sign and 1 or more digits
        let expn : DRes (Bool × Nat) :=
          if c2 = 101 ∨ c2 = 69 then
            let cA := byte0 data (pos2 + 1)
            if cA = 43 ∨ cA = 45 then
              let cB := byte0 data (pos2 + 2)
              if cB < 48 ∨ 57 < cB then
                .err (errC d.data (pos2 + 2) cB "in exponent of numeric literal")
              else .ok (true, skipDigitsF data (data.length + 1) (pos2 + 3))
            else .ok (true, skipDigitsF data (data.length + 1) (pos2 + 2))
          else .ok (isF1, pos2)
        match expn with
        | .fault => .fault
        | .err e => .err e
        | .timeout => .timeout
        | .ok (isFloat, posF) =>
          if isFloat then
            match sliceGo (if d.usestring then d.sdata else data) start posF with
            | none => .fault
            | some sn =>
              match parseFloatQ sn with
              | none => .err (.NumError sn)
              | some v => .ok ((if neg then -v else v), posF)
          else .ok ((if neg then -n else n), posF)
  if neg then
    match data[pos0 + 1]? with
    | none => .fault
    | some c =>
      if c < 48 ∧ 57 < c then
        .err (errC d.data (pos0 + 1) c "in negative numeric literal")
      else go (pos0 + 1)
  else go pos0

/-! ## The value dispatcher and the composite builders
(`Decoder.any`, `Decoder.array`, `Decoder.object` of `decode.go`) -/

/-- Wrap a scanner result into a `Value` result. -/
def mapRes {α : Type} (f : α → Value) : DRes (α × Nat) → DRes (Value × Nat)
  | .ok (a, p) => .ok (f a, p)
  | .err e => .err e
  | .fault => .fault
  | .timeout => .timeout

/-- The single-byte dispatch set of `Decoder.any`: bytes that begin a
production. -/
def startsValue (c : Nat) : Bool :=
  c = 34 || (48 ≤ c && c ≤ 57) || c = 45 || c = 102 || c = 116 || c = 110 ||
    c = 91 || c = 123

mutual

/-- `Decoder.any`: skip whitespace and dispatch on the next byte.  The
literal arms consume the exact remaining bytes of `false`/`true`/`null`
after an explicit remaining-length check; note that their mismatch error
reports `d.data[d.pos]` — the FIRST byte after the initial character — not
the mismatching byte. -/
def anyD (fuel0 : Nat) (d : Decoder) (pos : Nat) : DRes (Value × Nat) :=
  match fuel0 with
  | 0 => .timeout
  | fuel + 1 =>
    let q := skipWS d.data pos
    let c := byte0 d.data q
    if c = 34 then mapRes Value.str (stringD d q)
    else if 48 ≤ c ∧ c ≤ 57 then mapRes Value.num (numberD d q false)
    else if c = 45 then mapRes Value.num (numberD d q true)
    else if c = 102 then
      let p := q + 1
      if d.data.length - p < 4 then .err ErrUnexpectedEOF
      else if byte0 d.data p = 97 ∧ byte0 d.data (p + 1) = 108 ∧
          byte0 d.data (p + 2) = 115 ∧ byte0 d.data (p + 3) = 101 then
        .ok (.bool false, p + 4)
      else .err (errC d.data p (byte0 d.data p) "in literal false")
    else if c = 116 then
      let p := q + 1
      if d.data.length - p < 3 then .err ErrUnexpectedEOF
      else if byte0 d.data p = 114 ∧ byte0 d.data (p + 1) = 117 ∧
          byte0 d.data (p + 2) = 101 then
        .ok (.bool true, p + 3)
      else .err (errC d.data p (byte0 d.data p) "in literal true")
    else if c = 110 then
      let p := q + 1
      if d.data.length - p < 3 then .err ErrUnexpectedEOF
      else if byte0 d.data p = 117 ∧ byte0 d.data (p + 1) = 108 ∧
          byte0 d.data (p + 2) = 108 then
        .ok (.null, p + 3)
      else .err (errC d.data p (byte0 d.data p) "in literal null")
    else if c = 91 then mapRes Value.arr (arrayD fuel d q)
    else if c = 123 then mapRes Value.obj (objectD fuel d q)
    else .err (errC d.data q c "looking for beginning of value")
termination_by structural fuel0

/-- `Decoder.array`, cursor at `[`.  The `d.pos++` before `skipSpaces`
means that on an empty buffer the subsequent `d.data[d.pos]` read inside
`skipSpaces` is out of range: a fault. -/
def arrayD (fuel0 : Nat) (d : Decoder) (pos : Nat) : DRes (List Value × Nat) :=
  match fuel0 with
  | 0 => .timeout
  | fuel + 1 =>
    if d.data.length < pos + 1 then .fault
    else
      let q := skipWS d.data (pos + 1)
      if byte0 d.data q = 93 then .ok ([], q + 1)
      else arrayLoop fuel d q []
termination_by structural fuel0

/-- The element loop of `Decoder.array`: decode a value, then require `,`
or `]`. -/
def arrayLoop (fuel0 : Nat) (d : Decoder) (pos : Nat) (acc : List Value) :
    DRes (List Value × Nat) :=
  match fuel0 with
  | 0 => .timeout
  | fuel + 1 =>
    match anyD fuel d pos with
    | .ok (v, p) =>
      let q := skipWS d.data p
      let c := byte0 d.data q
      if c = 44 then arrayLoop fuel d (q + 1) (acc ++ [v])
      else if c = 93 then .ok (acc ++ [v], q + 1)
      else .err (errC d.data q c "after array element")
    | .err e => .err e
    | .fault => .fault
    | .timeout => .timeout
termination_by structural fuel0

/-- `Decoder.object`, cursor at `{` (same `d.pos++` fault note as
`arrayD`). -/
def objectD (fuel0 : Nat) (d : Decoder) (pos : Nat) :
    DRes (List (List Nat × Value) × Nat) :=
  match fuel0 with
  | 0 => .timeout
  | fuel + 1 =>
    if d.data.length < pos + 1 then .fault
    else
      let q := skipWS d.data (pos + 1)
      if byte0 d.data q = 125 then .ok ([], q + 1)
      else objectLoop fuel d q []
termination_by structural fuel0

/-- The member loop of `Decoder.object`: key string, `:`, value (assigned
with `setKey`, i.e. `obj[k] = v`), then `,` or `}`. -/
def objectLoop (fuel0 : Nat) (d : Decoder) (pos : Nat)
    (obj : List (List Nat × Value)) : DRes (List (List Nat × Value) × Nat) :=
  match fuel0 with
  | 0 => .timeout
  | fuel + 1 =>
    let q := skipWS d.data pos
    let c := byte0 d.data q
    if c ≠ 34 then .err (errC d.data q c "looking for beginning of object key string")
    else
      match stringD d q with
      | .ok (k, p1) =>
        let q2 := skipWS d.data p1
        let c2 := byte0 d.data q2
        if c2 ≠ 58 then .err (errC d.data q2 c2 "after object key")
        else
          match anyD fuel d (q2 + 1) with
          | .ok (v, p2) =>
            let obj2 := setKey obj k v
            let q3 := skipWS d.data p2
            let c3 := byte0 d.data q3
            if c3 = 125 then .ok (obj2, q3 + 1)
            else if c3 = 44 then objectLoop fuel d (q3 + 1) obj2
            else .err (errC d.data q3 c3 "after object key:value pair")
          | .err e => .err e
          | .fault => .fault
          | .timeout => .timeout
      | .err e => .err e
      | .fault => .fault
      | .timeout => .timeout
termination_by structural fuel0

end

/-- Fuel passed by the entry points.  Every fuel decrement is an entry to
one of the five mutually recursive functions, and along any single call
chain at most three of those entries are charged to the same consumed
input byte (`anyD` dispatching on a `[` or `{`, the `arrayD`/`objectD`
header that consumes it, and the `arrayLoop`/`objectLoop` entry that
follows; every further entry in the chain first consumes at least one more
byte).  Hence the deepest possible decrement chain on an input of length
`n` is bounded by `3*n` plus a small constant, and `3*n + 16` can never be
exhausted: `DRes.timeout` is unreachable from the entry points. -/
def topFuel (data : List Nat) : Nat := 3 * data.length + 16

/-- The trailing-garbage check shared by every entry point:
`if c := d.skipSpaces(); d.pos < d.end { return d.error(c, "after top-level
value") }`. -/
def finishTop {α : Type} (d : Decoder) (a : α) (p : Nat) : DRes α :=
  let q := skipWS d.data p
  if q < d.data.length then
    .err (errC d.data q (byte0 d.data q) "after top-level value")
  else .ok a

/-- `Decoder.Decode` (the method of `decode.go`): one top-level value of
any production, then no trailing non-whitespace. -/
def DecodeD (d : Decoder) : DRes Value :=
  match anyD (topFuel d.data) d 0 with
  | .ok (v, p) => finishTop d v p
  | .err e => .err e
  | .fault => .fault
  | .timeout => .timeout

/-- Package-level `Decode` of `interface.go`: fresh decoder, `any`, then
the trailing check. -/
def Decode (data : List Nat) : DRes Value := DecodeD (NewDecoder data)

/-- Package-level `DecodeObject` of `interface.go` (the revision cited by
the claims): `skipSpaces` then `object()` — with NO check that the first
significant byte is `{`. -/
def DecodeObject (data : List Nat) : DRes (List (List Nat × Value)) :=
  let d := NewDecoder data
  match objectD (topFuel data) d (skipWS data 0) with
  | .ok (v, p) => finishTop d v p
  | .err e => .err e
  | .fault => .fault
  | .timeout => .timeout

/-- Package-level `DecodeArray` of `interface.go` (same revision): no `[`
check. -/
def DecodeArray (data : List Nat) : DRes (List Value) :=
  let d := NewDecoder data
  match arrayD (topFuel data) d (skipWS data 0) with
  | .ok (v, p) => finishTop d v p
  | .err e => .err e
  | .fault => .fault
  | .timeout => .timeout

/-- Package-level `DecodeString` of `interface.go`: `skipSpaces` then
`d.string()` — with NO check that the first significant byte is a double
quote (`string()` unconditionally steps over it). -/
def DecodeString (data : List Nat) : DRes (List Nat) :=
  let d := NewDecoder data
  match stringD d (skipWS data 0) with
  | .ok (s, p) => finishTop d s p
  | .err e => .err e
  | .fault => .fault
  | .timeout => .timeout

/-- Package-level `DecodeNumber` of `interface.go`: `number(c == '-')`
where `c` is the first significant byte. -/
def DecodeNumber (data : List Nat) : DRes Rat :=
  let d := NewDecoder data
  let q := skipWS data 0
  match numberD d q (byte0 data q = 45) with
  | .ok (n, p) => finishTop d n p
  | .err e => .err e
  | .fault => .fault
  | .timeout => .timeout

/-- The byte sequence of an ASCII string literal (all concrete inputs used
in the theorems below are ASCII, where code points and UTF-8 bytes
coincide). -/
def bs (s : String) : List Nat := s.data.map Char.toNat

end djson

namespace djson

/-! ## Supporting lemmas -/

/-- A position holding a nonzero byte is in range. -/
theorem byte0_lt_of_ne (data : List Nat) (pos : Nat) (h : byte0 data pos ≠ 0) :
    pos < data.length := by
  by_contra hge
  have : data[pos]? = none := by
    simp [List.getElem?_eq_none_iff]
    omega
  simp [byte0, this] at h

/-- `skipSpaces` does not move off a non-whitespace byte. -/
theorem skipWS_at (data : List Nat) (pos : Nat) (h : isWS (byte0 data pos) = false) :
    skipWS data pos = pos := by
  unfold skipWS
  rcases Nat.exists_eq_add_of_lt (Nat.zero_lt_succ data.length) with ⟨f, hf⟩
  simp [skipSpacesF, h]

example : skipWS (bs "  x") 0 = 2 := by with_unfolding_all rfl

/-- Beyond the end of the buffer the sentinel byte is `0`. -/
theorem byte0_eq_zero (data : List Nat) (i : Nat) (h : data.length ≤ i) :
    byte0 data i = 0 := by
  have : data[i]? = none := by
    simp [List.getElem?_eq_none_iff]; omega
  simp [byte0, this]

/-- Go map assignment semantics: after `obj[k] = v` the map binds `k` to
`v`. -/
theorem setKey_last (m : List (List Nat × Value)) (k : List Nat) (v : Value) :
    lookupKey (setKey m k v) k = some v := by
  induction m with
  | nil => simp [setKey, lookupKey]
  | cons hd t ih =>
    obtain ⟨k', v'⟩ := hd
    by_cases hk : k' = k
    · simp [setKey, hk, lookupKey]
    · simp [setKey, hk, lookupKey, ih]

/-- Go map assignment semantics: `obj[k] = v` leaves every other key's
binding unchanged. -/
theorem setKey_other (m : List (List Nat × Value)) (k : List Nat) (v : Value)
    (k' : List Nat) (h : k' ≠ k) :
    lookupKey (setKey m k v) k' = lookupKey m k' := by
  have h' : k ≠ k' := fun hh => h hh.symm
  induction m with
  | nil => simp [setKey, lookupKey, h']
  | cons hd t ih =>
    obtain ⟨k0, v0⟩ := hd
    by_cases hk : k0 = k
    · subst hk
      simp [setKey, lookupKey, h']
    · simp only [setKey, hk, if_neg hk, lookupKey]
      by_cases hk' : k0 = k'
      · simp [hk']
      · simp [hk', ih]

/-- If every byte from `pos` on is ordinary string content (no quote, no
backslash, no control byte), the string scan runs off the end of the input
and fails with `ErrUnexpectedEOF`. -/
theorem stringScan_clean (d : Decoder) :
    ∀ fuel pos start unq, d.data.length - pos < fuel →
    (∀ i, pos ≤ i → i < d.data.length →
      byte0 d.data i ≠ 34 ∧ byte0 d.data i ≠ 92 ∧ 32 ≤ byte0 d.data i) →
    stringScan d fuel start pos unq = .err ErrUnexpectedEOF := by
  intro fuel
  induction fuel with
  | zero => intro pos start unq h; omega
  | succ f ih =>
    intro pos start unq hf hclean
    by_cases hpos : pos ≥ d.data.length
    · simp [stringScan, hpos]
    · push_neg at hpos
      obtain ⟨h34, h92, h32⟩ := hclean pos (le_refl pos) hpos
      have hnot : ¬pos ≥ d.data.length := by omega
      simp only [stringScan]
      rw [if_neg hnot, if_neg h34, if_neg h92, if_neg (Nat.not_lt.mpr h32)]
      exact ih (pos + 1) start _ (by omega)
        (fun i hi hlt => hclean i (by omega) hlt)

/-- The number scanner reads `sdata` only behind the `usestring` flag, so a
decoder whose `sdata` equals its `data` computes the same result as one
with the flag off. -/
theorem numberD_sdata (data sd : List Nat) (pos : Nat) (neg : Bool) :
    numberD ⟨data, data, true⟩ pos neg = numberD ⟨data, sd, false⟩ pos neg :=
  rfl

/-- Same for the string scan loop: the `usestring` fast path yields the
same bytes when `sdata` equals `data`. -/
theorem stringScan_sdata (data sd : List Nat) :
    ∀ fuel start pos unq,
      stringScan ⟨data, data, true⟩ fuel start pos unq =
        stringScan ⟨data, sd, false⟩ fuel start pos unq := by
  intro fuel
  induction fuel with
  | zero => intro start pos unq; rfl
  | succ f ih =>
    intro start pos unq
    simp only [stringScan, ih]
    simp

/-- `Decoder.string` under `AllocString` preconditions equals the plain
decoder. -/
theorem stringD_sdata (data sd : List Nat) (pos : Nat) :
    stringD ⟨data, data, true⟩ pos = stringD ⟨data, sd, false⟩ pos := by
  unfold stringD
  exact stringScan_sdata data sd _ _ _ _

/-- The whole mutual decoding recursion is insensitive to the
`usestring`/`sdata` representation choice when `sdata` mirrors `data`. -/
theorem alloc_equiv (data sd : List Nat) :
    ∀ fuel,
      (∀ pos, anyD fuel ⟨data, data, true⟩ pos =
        anyD fuel ⟨data, sd, false⟩ pos) ∧
      (∀ pos, arrayD fuel ⟨data, data, true⟩ pos =
        arrayD fuel ⟨data, sd, false⟩ pos) ∧
      (∀ pos acc, arrayLoop fuel ⟨data, data, true⟩ pos acc =
        arrayLoop fuel ⟨data, sd, false⟩ pos acc) ∧
      (∀ pos, objectD fuel ⟨data, data, true⟩ pos =
        objectD fuel ⟨data, sd, false⟩ pos) ∧
      (∀ pos obj, objectLoop fuel ⟨data, data, true⟩ pos obj =
        objectLoop fuel ⟨data, sd, false⟩ pos obj) := by
  intro fuel
  induction fuel with
  | zero => exact ⟨fun _ => rfl, fun _ => rfl, fun _ _ => rfl, fun _ => rfl,
      fun _ _ => rfl⟩
  | succ f ih =>
    obtain ⟨ihAny, ihArr, ihAL, ihObj, ihOL⟩ := ih
    refine ⟨?_, ?_, ?_, ?_, ?_⟩
    · intro pos
      simp only [anyD, stringD_sdata data sd, numberD_sdata data sd, ihArr, ihObj]
    · intro pos
      simp only [arrayD, ihAL]
    · intro pos acc
      simp only [arrayLoop, ihAny, ihAL]
    · intro pos
      simp only [objectD, ihOL]
    · intro pos obj
      simp only [objectLoop, stringD_sdata data sd, ihAny, ihOL]

/-! ## The claims -/

/-- Claim C1 (code_bug): the claim states that every decoding entry point
returns a value or a typed error — never an uncatchable fault — naming
bare `"-"`, `"1."` at end of input, and a string truncated inside a `\u`
escape.  The code violates this: each of the entry points below performs an
out-of-range index of the input buffer (a Go runtime panic, `DRes.fault`)
on the listed inputs: `Decode` on a string truncated inside a `\u` escape,
`DecodeString` on a string ending at a backslash, `DecodeNumber` on a bare
`-` and on empty input, and `DecodeObject`/`DecodeArray` on empty input
(their unconditional `d.pos++` sends `skipSpaces` past the end). -/
theorem entry_points_fault :
    Decode (bs "\"\\u0") = .fault ∧
    DecodeString (bs "\"\\") = .fault ∧
    DecodeNumber (bs " -") = .fault ∧
    DecodeNumber (bs "") = .fault ∧
    DecodeObject (bs "") = .fault ∧
    DecodeArray (bs "") = .fault := by
  refine ⟨?_, ?_, ?_, ?_, ?_, ?_⟩ <;> with_unfolding_all rfl

/-- Claim C2, counterexample: `"1."` is the complete top-level value `"1"`
followed by the non-whitespace byte `'.'`, yet `Decode` does not return the
"after top-level value" syntax error — it faults (out-of-range index at
`d.data[d.pos]` after the decimal point), because the trailing byte is
consumed by the number scan itself. -/
theorem trailing_dot_faults :
    Decode (bs "1") = .ok (.num 1) ∧
    bs "1." = bs "1" ++ bs "." ∧
    isWS 46 = false ∧
    Decode (bs "1.") = .fault := by
  refine ⟨by with_unfolding_all rfl, by decide, by decide, by with_unfolding_all rfl⟩

/-- Claim C2 (amended): whenever the dispatcher itself parses the top-level
value successfully (which fails for trailing bytes such as `'.'`/`'e'` that
extend the number scan) and a non-whitespace byte follows at position `q`,
`Decode` fails with a `SyntaxError` whose message ends with (hence
contains) "after top-level value" and whose `Offset` is `q + 1`, the
1-based position of the first trailing non-whitespace byte. -/
theorem decode_trailing (data : List Nat) (v : Value) (p q : Nat)
    (hok : anyD (topFuel data) (NewDecoder data) 0 = .ok (v, p))
    (hq : skipWS data p = q) (hlt : q < data.length) :
    Decode data = .err (.SyntaxError
      ("invalid character " ++ quoteChar (byte0 data q) ++ " " ++
        "after top-level value") ((q : Int) + 1)) ∧
    ∃ pre : String,
      ("invalid character " ++ quoteChar (byte0 data q) ++ " " ++
        "after top-level value") = pre ++ "after top-level value" := by
  constructor
  · have hdata : (NewDecoder data).data = data := rfl
    unfold Decode DecodeD
    rw [hdata, hok]
    show finishTop (NewDecoder data) v p = _
    unfold finishTop
    rw [hdata]
    simp only [hq, hlt, if_true, ite_true]
    simp [errC, NewDecoder, hlt]
  · exact ⟨"invalid character " ++ quoteChar (byte0 data q) ++ " ",
      by simp [String.append_assoc]⟩

/-- Witness for C2 at the input `"1 x"`: the trailing `'x'` at 0-based
position 2 is reported at 1-based offset 3. -/
theorem decode_trailing_witness :
    Decode (bs "1 x") =
      .err (.SyntaxError "invalid character 'x' after top-level value" 3) ∧
    ∃ pre : String,
      ("invalid character 'x' after top-level value" : String) =
        pre ++ "after top-level value" := by
  have h := decode_trailing (bs "1 x") (.num 1) 1 2
    (by with_unfolding_all rfl) (by with_unfolding_all rfl) (by decide)
  exact h

/-- Claim C3 (confirmed): decoding `"\u0041"` yields the one-character
string `"A"` (the UTF-8 encoding of U+0041); decoding `"\uD834\uDD1E"`
yields the single Unicode scalar U+1D11E; decoding `"\uD834x\uDD1E"`
(unpaired high surrogate, `x`, unpaired low surrogate) yields U+FFFD, `x`,
U+FFFD. -/
theorem unicode_escape_decoding :
    Decode (bs "\"\\u0041\"") = .ok (.str (encodeRune 0x41)) ∧
    Decode (bs "\"\\uD834\\uDD1E\"") = .ok (.str (encodeRune 0x1D11E)) ∧
    Decode (bs "\"\\uD834x\\uDD1E\"") =
      .ok (.str (encodeRune 0xFFFD ++ [120] ++ encodeRune 0xFFFD)) := by
  refine ⟨?_, ?_, ?_⟩ <;> with_unfolding_all rfl

/-- Claim C4 (code_bug): the value half of the claim holds — `"5"` decodes
to 5, `"-5"` to -5 and `"1e-3"` to 1/1000 (the exact-rational model of
0.001; the IEEE evaluations of both sides coincide) — but a bare `"-"` or
`"1."` does not fail with an "invalid number literal" error as the claim
states: the scanner indexes past the end of the buffer and faults (the
guards written `c < '0' && c > '9'` in the source are unsatisfiable, and
the reads they were meant to protect are unguarded).  No error text
"invalid number literal" exists in this revision of the scanner. -/
theorem number_literals :
    Decode (bs "5") = .ok (.num 5) ∧
    Decode (bs "-5") = .ok (.num (-5)) ∧
    Decode (bs "1e-3") = .ok (.num (1 / 1000)) ∧
    Decode (bs "-") = .fault ∧
    Decode (bs "1.") = .fault := by
  refine ⟨?_, ?_, ?_, ?_, ?_⟩ <;> with_unfolding_all rfl

/-- Claim C5 (confirmed): the object builder performs Go map assignment
`obj[k] = v` (`setKey`) for each `key:value` pair in textual order, so a
repeated key is bound to the value of its last occurrence and other keys
are untouched; in particular `{"a":1,"a":2}` decodes to the single binding
`"a" ↦ 2`. -/
theorem duplicate_keys_last_write_wins :
    (∀ m k v, lookupKey (setKey m k v) k = some v) ∧
    (∀ m k v k', k' ≠ k → lookupKey (setKey m k v) k' = lookupKey m k') ∧
    Decode (bs "\x7b\"a\":1,\"a\":2\x7d") = .ok (.obj [([97], .num 2)]) := by
  refine ⟨setKey_last, fun m k v k' h => setKey_other m k v k' h, ?_⟩
  with_unfolding_all rfl

/-- Witness for C5: instantiating the map-assignment facts at concrete
arguments. -/
theorem duplicate_keys_witness :
    lookupKey (setKey [([97], Value.num 1)] [97] (Value.num 2)) [97] =
      some (Value.num 2) ∧
    lookupKey (setKey [([97], Value.num 1)] [97] (Value.num 2)) [98] =
      lookupKey [([97], Value.num 1)] [98] :=
  ⟨duplicate_keys_last_write_wins.1 [([97], Value.num 1)] [97] (Value.num 2),
    duplicate_keys_last_write_wins.2.1 [([97], Value.num 1)] [97]
      (Value.num 2) [98] (by decide)⟩

/-- Claim C6, counterexample: in `"\u000g"` the fourth character after
`\u` is not a hex digit, yet decoding fails with `ErrStringEscape` (the
plain string-escape error from the unquoting pass), which is neither
`ErrInvalidHexEscape` nor any `SyntaxError` — the scanner checks only the
first three characters after `\u`. -/
theorem fourth_hex_char_not_hex_error :
    Decode (bs "\"\\u000g\"") = .err .ErrStringEscape ∧
    DErr.ErrStringEscape ≠ ErrInvalidHexEscape ∧
    (∀ msg off, DErr.ErrStringEscape ≠ .SyntaxError msg off) := by
  refine ⟨by with_unfolding_all rfl, by decide, fun msg off h => by cases h⟩

/-- Claim C6 (amended): a non-hex digit among the FIRST THREE characters
after `\u` fails with the invalid-character-in-`\u`-escape `SyntaxError`;
a `\u` with no bytes after it fails with `ErrInvalidHexEscape`; a non-hex
FOURTH character escapes the scanner and fails later in the unquoting pass
with `ErrStringEscape`; and a `\u` truncated after one to three remaining
bytes faults on an out-of-range index (`d.data[d.pos+i]` is guarded only by
`d.pos < d.end`). -/
theorem hex_escape_errors :
    Decode (bs "\"\\u0g00\"") =
      .err (.SyntaxError
        ("invalid character " ++ quoteChar 103 ++ " " ++
          "in \\u hexadecimal character escape") 4) ∧
    Decode (bs "\"\\u") = .err ErrInvalidHexEscape ∧
    Decode (bs "\"\\u000g\"") = .err .ErrStringEscape ∧
    Decode (bs "\"\\u00") = .fault := by
  refine ⟨?_, ?_, ?_, ?_⟩ <;> with_unfolding_all rfl

/-- Claim C7, counterexample: on `"falxe"` the mismatch is the byte `'x'`
at 1-based offset 4, but the error names `'a'` (the first byte after `'f'`)
at offset 2 — the matcher always reports `d.data[d.pos]`, not the
offending byte. -/
theorem literal_error_not_offending_byte :
    Decode (bs "falxe") =
      .err (.SyntaxError ("invalid character " ++ quoteChar 97 ++ " " ++
        "in literal false") 2) ∧
    ("invalid character " ++ quoteChar 97 ++ " " ++ "in literal false" : String) ≠
      "invalid character " ++ quoteChar 120 ++ " " ++ "in literal false" ∧
    (2 : Int) ≠ 4 := by
  refine ⟨by with_unfolding_all rfl, by decide, by decide⟩

/-- Claim C7 (amended): on `'f'`/`'t'`/`'n'` the dispatcher consumes the
exact remaining bytes of `false`/`true`/`null`; with fewer remaining bytes
than the literal needs it fails with `ErrUnexpectedEOF`; on any byte
mismatch it fails with an invalid-character-in-literal `SyntaxError` that
reports the FIRST byte after the initial character and its offset (1-based
position of that first byte), not the mismatching byte. -/
theorem literal_matcher (fuel : Nat) (d : Decoder) (pos : Nat) :
    (byte0 d.data pos = 102 →
      (d.data.length - (pos + 1) < 4 →
        anyD (fuel + 1) d pos = .err ErrUnexpectedEOF) ∧
      (4 ≤ d.data.length - (pos + 1) →
        byte0 d.data (pos + 1) = 97 ∧ byte0 d.data (pos + 2) = 108 ∧
          byte0 d.data (pos + 3) = 115 ∧ byte0 d.data (pos + 4) = 101 →
        anyD (fuel + 1) d pos = .ok (.bool false, pos + 5)) ∧
      (4 ≤ d.data.length - (pos + 1) →
        ¬(byte0 d.data (pos + 1) = 97 ∧ byte0 d.data (pos + 2) = 108 ∧
            byte0 d.data (pos + 3) = 115 ∧ byte0 d.data (pos + 4) = 101) →
        anyD (fuel + 1) d pos = .err (.SyntaxError
          ("invalid character " ++ quoteChar (byte0 d.data (pos + 1)) ++ " " ++
            "in literal false") ((pos : Int) + 2)))) ∧
    (byte0 d.data pos = 116 →
      (d.data.length - (pos + 1) < 3 →
        anyD (fuel + 1) d pos = .err ErrUnexpectedEOF) ∧
      (3 ≤ d.data.length - (pos + 1) →
        byte0 d.data (pos + 1) = 114 ∧ byte0 d.data (pos + 2) = 117 ∧
          byte0 d.data (pos + 3) = 101 →
        anyD (fuel + 1) d pos = .ok (.bool true, pos + 4)) ∧
      (3 ≤ d.data.length - (pos + 1) →
        ¬(byte0 d.data (pos + 1) = 114 ∧ byte0 d.data (pos + 2) = 117 ∧
            byte0 d.data (pos + 3) = 101) →
        anyD (fuel + 1) d pos = .err (.SyntaxError
          ("invalid character " ++ quoteChar (byte0 d.data (pos + 1)) ++ " " ++
            "in literal true") ((pos : Int) + 2)))) ∧
    (byte0 d.data pos = 110 →
      (d.data.length - (pos + 1) < 3 →
        anyD (fuel + 1) d pos = .err ErrUnexpectedEOF) ∧
      (3 ≤ d.data.length - (pos + 1) →
        byte0 d.data (pos + 1) = 117 ∧ byte0 d.data (pos + 2) = 108 ∧
          byte0 d.data (pos + 3) = 108 →
        anyD (fuel + 1) d pos = .ok (.null, pos + 4)) ∧
      (3 ≤ d.data.length - (pos + 1) →
        ¬(byte0 d.data (pos + 1) = 117 ∧ byte0 d.data (pos + 2) = 108 ∧
            byte0 d.data (pos + 3) = 108) →
        anyD (fuel + 1) d pos = .err (.SyntaxError
          ("invalid character " ++ quoteChar (byte0 d.data (pos + 1)) ++ " " ++
            "in literal null") ((pos : Int) + 2)))) := by
  refine ⟨?_, ?_, ?_⟩ <;> intro hc <;>
    ( have hws : skipWS d.data pos = pos := skipWS_at _ _ (by rw [hc]; decide)
      have hoff : ((pos + 1 : Nat) : Int) + 1 = (pos : Int) + 2 := by
        push_cast
        ring
      refine ⟨?_, ?_, ?_⟩
      · intro hshort
        simp only [anyD, hws, hc]
        norm_num
        simp [hshort]
      · intro hlong hbytes
        simp only [anyD, hws, hc]
        norm_num
        first
        | simp [Nat.not_lt.mpr hlong, hbytes.1, hbytes.2.1, hbytes.2.2.1,
            hbytes.2.2.2]
        | simp [Nat.not_lt.mpr hlong, hbytes.1, hbytes.2.1, hbytes.2.2]
      · intro hlong hbytes
        have hp1 : pos + 1 < d.data.length := by omega
        simp only [anyD, hws, hc]
        norm_num
        simp [Nat.not_lt.mpr hlong, hbytes, errC, hp1, hoff]
        ring )

/-- Witness for C7: success on `"false"`, mismatch error on `"trux"`
(reporting `'r'` at offset 2), and unexpected EOF on `"n"`. -/
theorem literal_matcher_witness :
    anyD 6 (NewDecoder (bs "false")) 0 = .ok (.bool false, 5) ∧
    anyD 5 (NewDecoder (bs "trux")) 0 =
      .err (.SyntaxError "invalid character 'r' in literal true" 2) ∧
    anyD 3 (NewDecoder (bs "n")) 0 = .err ErrUnexpectedEOF := by
  refine ⟨?_, ?_, ?_⟩
  · exact ((literal_matcher 5 (NewDecoder (bs "false")) 0).1
      (by decide)).2.1 (by decide) (by decide)
  · exact ((literal_matcher 4 (NewDecoder (bs "trux")) 0).2.1
      (by decide)).2.2 (by decide) (by decide)
  · exact ((literal_matcher 2 (NewDecoder (bs "n")) 0).2.2
      (by decide)).1 (by decide)

/-- Claim C8, counterexample: on empty or all-whitespace input the
dispatcher does not produce the "looking for beginning of value" error the
claim requires — `Decoder.error` returns the fixed `ErrUnexpectedEOF`
(message "unexpected end of JSON input", offset `-1`) whenever the cursor
is at the end. -/
theorem eof_value_start_error :
    Decode (bs "") = .err (.SyntaxError "unexpected end of JSON input" (-1)) ∧
    Decode (bs " \t\n\r") = .err (.SyntaxError "unexpected end of JSON input" (-1)) ∧
    ("unexpected end of JSON input" : String) ≠
      "invalid character " ++ quoteChar 0 ++ " " ++ "looking for beginning of value" := by
  refine ⟨by with_unfolding_all rfl, by with_unfolding_all rfl, by decide⟩

/-- Claim C8 (amended): at an in-range non-whitespace byte that begins no
production the dispatcher fails with the "looking for beginning of value"
`SyntaxError` at 1-based offset `q + 1`; at end of input it fails with
`ErrUnexpectedEOF` instead. -/
theorem invalid_value_start (fuel : Nat) (d : Decoder) (pos q : Nat)
    (hq : skipWS d.data pos = q) :
    (q < d.data.length → startsValue (byte0 d.data q) = false →
      anyD (fuel + 1) d pos = .err (.SyntaxError
        ("invalid character " ++ quoteChar (byte0 d.data q) ++ " " ++
          "looking for beginning of value") ((q : Int) + 1))) ∧
    (d.data.length ≤ q → anyD (fuel + 1) d pos = .err ErrUnexpectedEOF) := by
  constructor
  · intro hlt hsv
    simp only [startsValue, Bool.or_eq_false_iff, Bool.and_eq_false_iff,
      decide_eq_false_iff_not, not_le, not_lt] at hsv
    obtain ⟨⟨⟨⟨⟨⟨⟨h34, h09⟩, h45⟩, h102⟩, h116⟩, h110⟩, h91⟩, h123⟩ := hsv
    simp only [anyD, hq]
    have h09' : ¬(48 ≤ byte0 d.data q ∧ byte0 d.data q ≤ 57) := by
      rcases h09 with h | h
      · omega
      · omega
    simp [h34, h09', h45, h102, h116, h110, h91, h123, errC, hlt]
  · intro hge
    have hc : byte0 d.data q = 0 := byte0_eq_zero _ _ hge
    simp only [anyD, hq, hc]
    simp [errC, Nat.not_lt.mpr hge, ErrUnexpectedEOF]

/-- Witness for C8: the invalid byte `'x'` at offset 1, and unexpected EOF
on all-whitespace input. -/
theorem invalid_value_start_witness :
    anyD 3 (NewDecoder (bs "x")) 0 =
      .err (.SyntaxError "invalid character 'x' looking for beginning of value" 1) ∧
    anyD 3 (NewDecoder (bs " ")) 0 = .err ErrUnexpectedEOF := by
  refine ⟨?_, ?_⟩
  · exact (invalid_value_start 2 (NewDecoder (bs "x")) 0 0 (by decide)).1
      (by decide) (by decide)
  · exact (invalid_value_start 2 (NewDecoder (bs " ")) 0 1 (by decide)).2
      (by decide)

/-- Claim C9, counterexample: `DecodeString` performs no opening-quote
check — on the input `x"`, whose first (non-whitespace) byte is `'x'`, it
returns the empty string with no error rather than a `SyntaxError`:
`string()` unconditionally steps over the first byte and takes the `"` as
the closing quote. -/
theorem decode_string_no_quote_check :
    DecodeString (bs "x\"") = .ok (bs "") ∧
    byte0 (bs "x\"") (skipWS (bs "x\"") 0) = 120 := by
  refine ⟨by with_unfolding_all rfl, by with_unfolding_all rfl⟩

/-- Claim C9 (amended): `DecodeString` never checks the opening quote; if
the first significant byte is not a quote and everything after it is
ordinary content (no quote, backslash, or control byte), the scan runs off
the end and `DecodeString` returns the `SyntaxError` `ErrUnexpectedEOF` —
but inputs containing a later quote can succeed, as the counterexample
shows. -/
theorem decode_string_nonstring (data : List Nat) (q : Nat)
    (hq : skipWS data 0 = q) (hnotquote : byte0 data q ≠ 34)
    (hclean : ∀ i, q < i → i < data.length →
      byte0 data i ≠ 34 ∧ byte0 data i ≠ 92 ∧ 32 ≤ byte0 data i) :
    DecodeString data = .err ErrUnexpectedEOF := by
  have key := stringScan_clean (NewDecoder data) (data.length + 2) (q + 1)
    (q + 1) false (by show data.length - (q + 1) < data.length + 2; omega)
    (fun i hi hlt => hclean i (by omega) hlt)
  unfold DecodeString stringD
  rw [hq]
  show (match stringScan (NewDecoder data) (data.length + 2) (q + 1) (q + 1)
      false with
    | DRes.ok (s, p) => finishTop (NewDecoder data) s p
    | DRes.err e => DRes.err e
    | DRes.fault => DRes.fault
    | DRes.timeout => DRes.timeout) = DRes.err ErrUnexpectedEOF
  rw [key]

/-- Witness for C9 at the non-string input `"5"`. -/
theorem decode_string_nonstring_witness :
    DecodeString (bs "5") = .err ErrUnexpectedEOF :=
  decode_string_nonstring (bs "5") 0 (by decide) (by decide)
    (fun i h1 h2 => absurd (by decide : (bs "5").length = 1 ∧ True)
      (fun hh => by omega))

/-- Claim C10 (confirmed): for every input, a decoder prepared with
`AllocString` decodes to exactly the same value and the same error as one
without it — the `usestring`/`sdata` fast path changes only the
representation of the produced strings, never the observable result.
(Capacity of Go slices is modelled as equal to length throughout, the only
content-deterministic choice.) -/
theorem allocstring_observational (data : List Nat) :
    DecodeD (AllocString (NewDecoder data)) = DecodeD (NewDecoder data) := by
  simp only [DecodeD, AllocString, NewDecoder]
  rw [(alloc_equiv data [] (topFuel data)).1 0]
  cases anyD (topFuel data) (⟨data, [], false⟩ : Decoder) 0 <;> rfl

end djson
